import Mathlib

/-!
Verification development for the Paystream frontend.

The two subsystems under study are:

* `src/components/MermaidDiagram.tsx` — the diagram sanitize/render pipeline
  (`sanitizeChart`, the `mermaid.render(...).then(...).catch(...)` call, the
  placeholder / fallback branches of the component);
* `src/pages/Analysis.tsx` — the session controller (`startAnalysis`, the
  `es.onmessage` event handlers, the roster `AGENT_DEFS`).

JavaScript strings are modelled as `List Char`.  JavaScript numbers appearing
in the session state (budgets, payments) are modelled as `ℚ`: the handlers
only copy and compare them, no arithmetic is performed, so any ordered field
is a faithful model.  The external mermaid engine is an opaque parameter of
type `List Char → Except (List Char) (List Char)` (a rejected description is
an `Except.error`, mirroring a rejected promise that the component catches).
-/

namespace Paystream

/-! ## JavaScript string primitives used by the source -/

/-- ECMAScript whitespace (the class trimmed by `String.prototype.trim` and
matched by `\s`): tab, LF, VT, FF, CR, space, NBSP, Ogham space mark, the
U+2000–U+200A range, LS, PS, NNBSP, MMSP, ideographic space and BOM. -/
def jsWhitespace (c : Char) : Bool :=
  let n := c.toNat
  n == 0x20 || n == 0x9 || n == 0xa || n == 0xb || n == 0xc || n == 0xd ||
  n == 0xa0 || n == 0x1680 || (0x2000 ≤ n && n ≤ 0x200a) ||
  n == 0x2028 || n == 0x2029 || n == 0x202f || n == 0x205f || n == 0x3000 || n == 0xfeff

/-- JS `s.trimStart()`: drop leading whitespace. -/
def trimLeft (s : List Char) : List Char := s.dropWhile jsWhitespace

/-- JS `s.trimEnd()`: drop trailing whitespace. -/
def trimRight (s : List Char) : List Char := (s.reverse.dropWhile jsWhitespace).reverse

/-- JS `s.trim()`: drop surrounding whitespace. -/
def trim (s : List Char) : List Char := trimRight (trimLeft s)

/-- JS `haystack.includes(needle)`: substring containment test. -/
def includesSub (needle : List Char) : List Char → Bool
  | [] => needle.isEmpty
  | c :: t => needle.isPrefixOf (c :: t) || includesSub needle t

/-! ## MermaidDiagram.tsx — `sanitizeChart` (lines 36–46) -/

/-- The markdown code-fence marker. -/
def fenceMarker : List Char := "```".toList

/-- A character matched by `[a-z]` under the `i` flag. -/
def isTagLetter (c : Char) : Bool :=
  ('a' ≤ c && c ≤ 'z') || ('A' ≤ c && c ≤ 'Z')

/-- Embedding of `raw.replace(/^```[a-z]*\n?/i, '')`: if the text starts with a fence,
drop it, a maximal run of ASCII letters (the language tag) and one optional
newline.  The regex is anchored, so at most one leading match is removed. -/
def stripLeadingFence (s : List Char) : List Char :=
  if fenceMarker.isPrefixOf s then
    let r := (s.drop 3).dropWhile isTagLetter
    if r.head? = some '\n' then r.tail else r
  else s

/-- Embedding of `s.replace(/```$/, '')`: without the `m` flag, `$` only matches the very
end of the input, so the sole possible match is the final three backticks. -/
def stripTrailingFence (s : List Char) : List Char :=
  if fenceMarker.isSuffixOf s then s.dropLast.dropLast.dropLast else s

/-- The `valid` keyword list of `sanitizeChart` (line 40). -/
def validKeywords : List (List Char) :=
  ["graph ".toList, "flowchart ".toList, "sequenceDiagram".toList,
   "classDiagram".toList, "erDiagram".toList, "gantt".toList, "pie".toList]

/-- The `'graph TD\n'` default line prepended at line 43. -/
def defaultHeader : List Char := "graph TD\n".toList

/-- Lines 41–44: if the cleaned text starts with none of the recognized
diagram keywords, prepend the default flow-graph line. -/
def ensureDiagramKeyword (cleaned : List Char) : List Char :=
  if validKeywords.any (fun kw => kw.isPrefixOf cleaned) then cleaned
  else defaultHeader ++ cleaned

/-- Embedding of `sanitizeChart` (lines 36–46):
`raw.trim().replace(/^```[a-z]*\n?/i, '').replace(/```$/, '').trim()`,
then the keyword guard. -/
def sanitizeChart (raw : List Char) : List Char :=
  ensureDiagramKeyword (trim (stripTrailingFence (stripLeadingFence (trim raw))))

/-! ## MermaidDiagram.tsx — render pipeline (lines 53–101) -/

/-- Outcome of one render attempt: the resolved branch stores the produced
markup (line 65), the rejected branch stores the text shown by the
`DIAGRAM SOURCE` fallback view (lines 77 and 91–101). -/
inductive RenderResult
  | svg (markup : List Char)
  | fallback (rawText : List Char)
  deriving DecidableEq

/-- Lines 61–78: render the sanitized chart under the external engine; a
rejection is caught and turned into a fallback carrying `safeChart`. -/
def renderDiagram (engine : List Char → Except (List Char) (List Char))
    (chart : List Char) : RenderResult :=
  match engine (sanitizeChart chart) with
  | Except.ok markup => RenderResult.svg markup
  | Except.error _ => RenderResult.fallback (sanitizeChart chart)

/-- What the component shows for a given `chart` prop. -/
inductive DiagramView
  | placeholder
  | svgView (markup : List Char)
  | fallbackView (text : List Char)
  deriving DecidableEq

/-- The `MermaidDiagram` component: the effect guard (line 55) and the
placeholder branch (lines 82–88) both fire exactly when the `chart` prop is
absent, empty or whitespace-only; otherwise the engine is invoked on the
sanitized chart.  The second component records whether the engine was
invoked at all. -/
def mermaidComponent (engine : List Char → Except (List Char) (List Char))
    (chart : Option (List Char)) : DiagramView × Bool :=
  match chart with
  | none => (DiagramView.placeholder, false)
  | some c =>
    if trim c = [] then (DiagramView.placeholder, false)
    else
      match renderDiagram engine c with
      | RenderResult.svg m => (DiagramView.svgView m, true)
      | RenderResult.fallback t => (DiagramView.fallbackView t, true)

/-! ### Helper lemmas about the sanitizer -/

theorem isPrefixOf_append_self (l t : List Char) : l.isPrefixOf (l ++ t) = true :=
  List.isPrefixOf_iff_prefix.mpr (List.prefix_append l t)

theorem ensureDiagramKeyword_keyword (c : List Char) :
    validKeywords.any (fun kw => kw.isPrefixOf (ensureDiagramKeyword c)) = true := by
  unfold ensureDiagramKeyword
  split
  · assumption
  · refine List.any_eq_true.mpr ⟨"graph ".toList, by simp [validKeywords], ?_⟩
    have h : defaultHeader ++ c = "graph ".toList ++ ("TD\n".toList ++ c) := rfl
    rw [h]
    exact isPrefixOf_append_self _ _

theorem sanitizeChart_keyword (x : List Char) :
    validKeywords.any (fun kw => kw.isPrefixOf (sanitizeChart x)) = true :=
  ensureDiagramKeyword_keyword _

theorem ensureDiagramKeyword_no_fence (c : List Char) :
    fenceMarker.isPrefixOf (ensureDiagramKeyword c) = false := by
  have h := ensureDiagramKeyword_keyword c
  rcases List.any_eq_true.mp h with ⟨kw, hmem, hpre⟩
  simp only [validKeywords, List.mem_cons, List.not_mem_nil, or_false] at hmem
  rcases hmem with rfl | rfl | rfl | rfl | rfl | rfl | rfl <;>
    · obtain ⟨t, ht⟩ := List.isPrefixOf_iff_prefix.mp hpre
      rw [← ht]
      rfl

theorem stripLeadingFence_of_no_fence (s : List Char)
    (h : fenceMarker.isPrefixOf s = false) : stripLeadingFence s = s := by
  unfold stripLeadingFence
  simp [h]

theorem ensureDiagramKeyword_of_keyword (c : List Char)
    (h : validKeywords.any (fun kw => kw.isPrefixOf c) = true) :
    ensureDiagramKeyword c = c := by
  unfold ensureDiagramKeyword
  simp [h]

/-! ### Claims about the diagram pipeline -/

/-- C1: for every input string — empty, garbage or invalid diagram text — the
render operation is total and yields either a rendered-markup result (when
the engine resolves) or a fallback result; the fallback always carries the
sanitized source text verbatim, and an engine rejection never propagates. -/
theorem render_never_raises
    (engine : List Char → Except (List Char) (List Char)) (chart : List Char) :
    (∃ m, engine (sanitizeChart chart) = Except.ok m ∧
      renderDiagram engine chart = RenderResult.svg m) ∨
    ((∃ e, engine (sanitizeChart chart) = Except.error e) ∧
      renderDiagram engine chart = RenderResult.fallback (sanitizeChart chart)) := by
  cases h : engine (sanitizeChart chart) with
  | ok m => exact Or.inl ⟨m, by simp [h], by simp [renderDiagram, h]⟩
  | error e => exact Or.inr ⟨⟨e, by simp [h]⟩, by simp [renderDiagram, h]⟩

/-- C2 counterexample: the sanitizer is not idempotent.  On the empty string
it produces `"graph TD\n"`, whose second sanitization trims the trailing
newline; on `"A``````"` (a text ending in two fences) each pass strips one
more trailing fence. -/
theorem sanitizeChart_not_idempotent :
    sanitizeChart (sanitizeChart "".toList) ≠ sanitizeChart "".toList ∧
    sanitizeChart "".toList = "graph TD\n".toList ∧
    sanitizeChart (sanitizeChart "".toList) = "graph TD".toList ∧
    sanitizeChart (sanitizeChart "A``````".toList) ≠ sanitizeChart "A``````".toList := by
  refine ⟨by decide, by decide, by decide, by decide⟩

/-- C2 amended: the sanitizer is idempotent on every input whose sanitized
result is already whitespace-trimmed and does not end with a closing fence
marker (the two features a second pass would still rewrite). -/
theorem sanitizeChart_idempotent_of_trimmed (x : List Char)
    (h1 : trim (sanitizeChart x) = sanitizeChart x)
    (h2 : stripTrailingFence (sanitizeChart x) = sanitizeChart x) :
    sanitizeChart (sanitizeChart x) = sanitizeChart x := by
  have hk := sanitizeChart_keyword x
  have hl : stripLeadingFence (sanitizeChart x) = sanitizeChart x :=
    stripLeadingFence_of_no_fence _ (ensureDiagramKeyword_no_fence _)
  show ensureDiagramKeyword
      (trim (stripTrailingFence (stripLeadingFence (trim (sanitizeChart x))))) =
    sanitizeChart x
  rw [h1, hl, h2, h1]
  exact ensureDiagramKeyword_of_keyword _ hk

/-- Witness for the amended C2 theorem at `"graph TD\nA-->B"`. -/
theorem sanitizeChart_idempotent_of_trimmed_witness :
    trim (sanitizeChart "graph TD\nA-->B".toList) = sanitizeChart "graph TD\nA-->B".toList ∧
    stripTrailingFence (sanitizeChart "graph TD\nA-->B".toList) =
      sanitizeChart "graph TD\nA-->B".toList ∧
    sanitizeChart (sanitizeChart "graph TD\nA-->B".toList) =
      sanitizeChart "graph TD\nA-->B".toList :=
  ⟨by decide, by decide,
    sanitizeChart_idempotent_of_trimmed "graph TD\nA-->B".toList (by decide) (by decide)⟩

/-- Pipeline read literally off the spec's words (§4.4): (1) trim the
surrounding whitespace; (2) strip a leading fence with language tag and a
trailing fence; (3)–(4) if no recognized diagram keyword starts the remaining
text, prepend the default flow-graph line.  (No second trim is mentioned.) -/
def sanitizePipelineSpec (raw : List Char) : List Char :=
  ensureDiagramKeyword (stripTrailingFence (stripLeadingFence (trim raw)))

/-- The spec pipeline amended minimally: after fence stripping the remaining
text is trimmed again before the keyword check, exactly as the source does. -/
def sanitizePipelineSpecAmended (raw : List Char) : List Char :=
  ensureDiagramKeyword (trim (stripTrailingFence (stripLeadingFence (trim raw))))

/-- C9 counterexample: on a fenced diagram (`"```mermaid\nA-->B\n```"`, the
spec's own Scenario D shape) the source's `sanitizeChart` trims the content
again after stripping the fences, while the literal spec composition keeps
the inner trailing newline, so the two differ. -/
theorem sanitizeChart_ne_spec_pipeline :
    sanitizeChart "```mermaid\nA-->B\n```".toList ≠
      sanitizePipelineSpec "```mermaid\nA-->B\n```".toList ∧
    sanitizeChart "```mermaid\nA-->B\n```".toList = "graph TD\nA-->B".toList ∧
    sanitizePipelineSpec "```mermaid\nA-->B\n```".toList = "graph TD\nA-->B\n".toList := by
  refine ⟨by decide, by decide, by decide⟩

/-- C9 amended: `sanitizeChart` is total and equals the spec composition with
one added step — the remaining text is re-trimmed after fence stripping,
before the keyword check and the optional default-line prepend. -/
theorem sanitizeChart_eq_amended_pipeline (x : List Char) :
    sanitizeChart x = sanitizePipelineSpecAmended x := rfl

/-- C10: when the `chart` prop is absent, empty or whitespace-only, the
component shows the placeholder and the external engine is never invoked, so
the error/fallback branch is unreachable for such inputs. -/
theorem mermaid_placeholder_guard
    (engine : List Char → Except (List Char) (List Char))
    (chart : Option (List Char))
    (h : chart = none ∨ ∃ c, chart = some c ∧ trim c = []) :
    mermaidComponent engine chart = (DiagramView.placeholder, false) := by
  rcases h with rfl | ⟨c, rfl, hc⟩
  · rfl
  · simp [mermaidComponent, hc]

/-- Witness for C10 at a whitespace-only chart and an always-failing engine. -/
theorem mermaid_placeholder_guard_witness :
    mermaidComponent (fun _ => Except.error []) (some "  \n ".toList) =
      (DiagramView.placeholder, false) :=
  mermaid_placeholder_guard (fun _ => Except.error []) (some "  \n ".toList)
    (Or.inr ⟨"  \n ".toList, rfl, by decide⟩)

/-! ## Analysis.tsx — session state machine -/

/-- The `status` field of `AgentStatus` (line 13).  `pending` is declared in
the source interface but entries are only ever created `working`; a roster
slot with no entry reads as `pending` (line 467). -/
inductive AgentState
  | pending
  | working
  | complete
  | error
  deriving DecidableEq

/-- One entry of the `agents` array (lines 10–17). -/
structure AgentStatus where
  name : String
  key : String
  status : AgentState
  payment : ℚ
  txId : String
  allocation : ℚ
  deriving DecidableEq

/-- Repository metadata `RepoMeta` (lines 19–23). -/
structure RepoMeta where
  repoName : String
  fileCount : ℕ
  languages : List String
  deriving DecidableEq

/-- The `Phase` union (line 7). -/
inductive Phase
  | idle
  | fetching
  | analyzing
  | complete
  deriving DecidableEq

/-- The component state touched by `startAnalysis` and the `es.onmessage`
handlers.  `subscribed` models whether the `EventSource` opened by
`startAnalysis` is still delivering messages: `es.close()` (refund and error
handlers) sets it to `false`, after which `onmessage` never fires again. -/
structure SessionState where
  phase : Phase
  repoMeta : Option RepoMeta
  agents : List AgentStatus
  remainingBudget : ℚ
  refundAmount : ℚ
  refundTxId : String
  errorMsg : String
  shareId : String
  data : List (String × String)
  subscribed : Bool
  deriving DecidableEq

/-- The stream events recognized by `es.onmessage` (lines 188–245); `unknown`
stands for any other `type`, which the handler chain ignores. -/
inductive Event
  | fetching_repo
  | repo_fetched (meta : RepoMeta)
  | agent_start (agent : String) (payment : ℚ) (allocation : ℚ)
  | agent_complete (agent : String) (txId : String) (payment : ℚ)
      (remainingBudget : ℚ) (key : String) (result : String)
  | agent_error (agent : String)
  | analysis_complete (data : List (String × String))
  | report_saved (shareId : String)
  | refund (amount : ℚ) (txId : String)
  | error (message : String)
  | unknown
  deriving DecidableEq

/-- One `es.onmessage` delivery (lines 188–245).  The `type` comparisons in
the source are mutually exclusive, so the `if` chain is a `match`.  An event
reaches the handlers only while the `EventSource` is open. -/
def dispatch (s : SessionState) (e : Event) : SessionState :=
  if s.subscribed then
    match e with
    | Event.fetching_repo => { s with phase := Phase.fetching }
    | Event.repo_fetched meta => { s with repoMeta := some meta, phase := Phase.analyzing }
    | Event.agent_start agent payment allocation =>
        { s with agents := s.agents ++
            [{ name := agent, key := "", status := AgentState.working,
               payment := payment, txId := "", allocation := allocation }] }
    | Event.agent_complete agent txId payment remaining key result =>
        { s with
            agents := s.agents.map fun a =>
              if a.name = agent ∧ a.status = AgentState.working then
                { a with status := AgentState.complete, txId := txId, payment := payment }
              else a,
            remainingBudget := remaining,
            data := (key, result) :: s.data }
    | Event.agent_error agent =>
        { s with agents := s.agents.map fun a =>
            if a.name = agent then { a with status := AgentState.error } else a }
    | Event.analysis_complete d => { s with data := d }
    | Event.report_saved sid => { s with shareId := sid }
    | Event.refund amount txId =>
        { s with refundAmount := amount, refundTxId := txId,
                 phase := Phase.complete, subscribed := false }
    | Event.error message =>
        { s with errorMsg := message, phase := Phase.idle, subscribed := false }
    | Event.unknown => s
  else s

/-- Dispatch a whole stream of events in arrival order. -/
def dispatchList (s : SessionState) : List Event → SessionState
  | [] => s
  | e :: es => dispatchList (dispatch s e) es

/-- The state `startAnalysis` resets to on a valid URL (lines 174–186): all
feed/result state cleared, the chosen budget installed, `phase = fetching`,
and a fresh `EventSource` subscription opened. -/
def freshSession (budget : ℚ) : SessionState :=
  { phase := Phase.fetching, repoMeta := none, agents := [],
    remainingBudget := budget, refundAmount := 0, refundTxId := "",
    errorMsg := "", shareId := "", data := [], subscribed := true }

/-- The `'github.com'` literal of the URL validation (line 172). -/
def githubDomain : List Char := "github.com".toList

/-- Embedding of `startAnalysis` (lines 169–186): trim the URL, reject an empty or
non-GitHub URL by setting only the error message, otherwise reset to a fresh
session and open the subscription. -/
def startAnalysis (s : SessionState) (repoUrl : List Char) (budget : ℚ) : SessionState :=
  let url := trim repoUrl
  if url = [] then { s with errorMsg := "Please enter a GitHub repo URL." }
  else if includesSub githubDomain url = false then
    { s with errorMsg := "Only GitHub repos are supported right now." }
  else freshSession budget

/-- The fixed roster `AGENT_DEFS` (lines 65–70), by name. -/
def rosterNames : List String :=
  ["Code Reader Agent", "Simplifier Agent", "Analogy Agent", "Insight Agent"]

/-- How a roster card reads its slot (lines 466–467):
`agents.find((a) => a.name === def.name)` and `agent?.status || 'pending'`. -/
def slotStatus (s : SessionState) (n : String) : AgentState :=
  match s.agents.find? (fun a => a.name = n) with
  | some a => a.status
  | none => AgentState.pending

/-- Numeric rank of a phase along `idle → fetching → analyzing → complete`. -/
def phaseRank : Phase → ℕ
  | Phase.idle => 0
  | Phase.fetching => 1
  | Phase.analyzing => 2
  | Phase.complete => 3

/-- Session states reachable from a fresh session by dispatching events. -/
inductive Reachable : SessionState → Prop
  | init (budget : ℚ) : Reachable (freshSession budget)
  | step (s : SessionState) (e : Event) : Reachable s → Reachable (dispatch s e)

/-- Recognizer for `worker-started` events. -/
def isStartEvent : Event → Bool
  | Event.agent_start _ _ _ => true
  | _ => false

/-- Recognizer for `worker-completed` events. -/
def isCompleteEvent : Event → Bool
  | Event.agent_complete _ _ _ _ _ _ => true
  | _ => false

/-- Recognizer for `fatal-error` events. -/
def isErrorEvent : Event → Bool
  | Event.error _ => true
  | _ => false

/-! ### Helper lemmas about `dispatch` -/

theorem dispatch_closed (s : SessionState) (e : Event) (h : s.subscribed = false) :
    dispatch s e = s := by
  simp [dispatch, h]

theorem agents_after_complete (s : SessionState) (hs : s.subscribed = true)
    (a tx k res : String) (p rb : ℚ) :
    (dispatch s (Event.agent_complete a tx p rb k res)).agents =
      s.agents.map fun ag =>
        if ag.name = a ∧ ag.status = AgentState.working then
          { ag with status := AgentState.complete, txId := tx, payment := p }
        else ag := by
  simp [dispatch, hs]

theorem agents_after_error (s : SessionState) (hs : s.subscribed = true) (a : String) :
    (dispatch s (Event.agent_error a)).agents =
      s.agents.map fun ag =>
        if ag.name = a then { ag with status := AgentState.error } else ag := by
  simp [dispatch, hs]

/-! ### Concrete sessions used by counterexamples -/

/-- A `worker-started` event for the first roster member. -/
def cexStart : Event := Event.agent_start "Code Reader Agent" 1 25

/-- A `worker-completed` event for the first roster member. -/
def cexComplete : Event := Event.agent_complete "Code Reader Agent" "tx1" 1 1 "codeReader" "r"

/-- A session holding two `working` entries for the same roster member,
reached by two `worker-started` events (the source appends duplicates). -/
def dupStartSession : SessionState := dispatchList (freshSession 2) [cexStart, cexStart]

/-- A session whose single entry has already completed. -/
def doneSession : SessionState := dispatchList (freshSession 2) [cexStart, cexComplete]

/-! ### Claims about the agent event handlers -/

/-- C3 counterexample: the handlers do not upgrade only the most recent
working entry.  With two `working` duplicates of the same name, a
`worker-completed` event upgrades both of them; and a `worker-failed` event
for a name whose only entry is already `complete` is not a no-op — it
overwrites the `complete` status with `error`. -/
theorem agent_upgrade_not_most_recent :
    (dispatch dupStartSession cexComplete).agents.map AgentStatus.status =
      [AgentState.complete, AgentState.complete] ∧
    doneSession.agents.map AgentStatus.status = [AgentState.complete] ∧
    (dispatch doneSession (Event.agent_error "Code Reader Agent")).agents.map
      AgentStatus.status = [AgentState.error] := by
  refine ⟨by decide, by decide, by decide⟩

/-- C3 amended: a `worker-completed` event upgrades every entry whose name
matches and whose status is `working` (not only the most recent one), leaving
all other entries untouched, and leaves `agents` unchanged when no matching
entry is `working`; a `worker-failed` event sets `error` on every entry whose
name matches regardless of its current status (even `complete`), and leaves
`agents` unchanged only when no entry matches the name at all. -/
theorem agent_upgrade_all_matching :
    (∀ (s : SessionState) (ag : AgentStatus) (a tx k res : String) (p rb : ℚ) (i : ℕ),
       s.subscribed = true → s.agents[i]? = some ag →
       ag.name = a → ag.status = AgentState.working →
       (dispatch s (Event.agent_complete a tx p rb k res)).agents[i]? =
         some { ag with status := AgentState.complete, txId := tx, payment := p }) ∧
    (∀ (s : SessionState) (ag : AgentStatus) (a tx k res : String) (p rb : ℚ) (i : ℕ),
       s.subscribed = true → s.agents[i]? = some ag →
       ¬(ag.name = a ∧ ag.status = AgentState.working) →
       (dispatch s (Event.agent_complete a tx p rb k res)).agents[i]? = some ag) ∧
    (∀ (s : SessionState) (a tx k res : String) (p rb : ℚ),
       s.subscribed = true →
       (∀ ag ∈ s.agents, ¬(ag.name = a ∧ ag.status = AgentState.working)) →
       (dispatch s (Event.agent_complete a tx p rb k res)).agents = s.agents) ∧
    (∀ (s : SessionState) (ag : AgentStatus) (a : String) (i : ℕ),
       s.subscribed = true → s.agents[i]? = some ag → ag.name = a →
       (dispatch s (Event.agent_error a)).agents[i]? =
         some { ag with status := AgentState.error }) ∧
    (∀ (s : SessionState) (ag : AgentStatus) (a : String) (i : ℕ),
       s.subscribed = true → s.agents[i]? = some ag → ag.name ≠ a →
       (dispatch s (Event.agent_error a)).agents[i]? = some ag) ∧
    (∀ (s : SessionState) (a : String),
       s.subscribed = true → (∀ ag ∈ s.agents, ag.name ≠ a) →
       (dispatch s (Event.agent_error a)).agents = s.agents) := by
  refine ⟨?_, ?_, ?_, ?_, ?_, ?_⟩
  · intro s ag a tx k res p rb i hs hi hname hstatus
    rw [agents_after_complete s hs, List.getElem?_map, hi, Option.map_some']
    rw [if_pos ⟨hname, hstatus⟩]
  · intro s ag a tx k res p rb i hs hi hnot
    rw [agents_after_complete s hs, List.getElem?_map, hi, Option.map_some']
    rw [if_neg hnot]
  · intro s a tx k res p rb hs hnone
    rw [agents_after_complete s hs]
    calc s.agents.map _ = s.agents.map id :=
          List.map_congr_left fun ag hmem => if_neg (hnone ag hmem)
      _ = s.agents := List.map_id s.agents
  · intro s ag a i hs hi hname
    rw [agents_after_error s hs, List.getElem?_map, hi, Option.map_some']
    rw [if_pos hname]
  · intro s ag a i hs hi hname
    rw [agents_after_error s hs, List.getElem?_map, hi, Option.map_some']
    rw [if_neg hname]
  · intro s a hs hnone
    rw [agents_after_error s hs]
    calc s.agents.map _ = s.agents.map id :=
          List.map_congr_left fun ag hmem => if_neg (hnone ag hmem)
      _ = s.agents := List.map_id s.agents

/-- Witness for the amended C3 theorem: upgrading the sole working entry of a
concrete session and the no-op of a `worker-failed` event for an unknown
name. -/
theorem agent_upgrade_all_matching_witness :
    (dispatch (dispatchList (freshSession 2) [cexStart]) cexComplete).agents[0]? =
      some { name := "Code Reader Agent", key := "", status := AgentState.complete,
             payment := 1, txId := "tx1", allocation := 25 } ∧
    (dispatch doneSession (Event.agent_error "Nobody")).agents = doneSession.agents :=
  ⟨agent_upgrade_all_matching.1 (dispatchList (freshSession 2) [cexStart])
      { name := "Code Reader Agent", key := "", status := AgentState.working,
        payment := 1, txId := "", allocation := 25 }
      "Code Reader Agent" "tx1" "codeReader" "r" 1 1 0 (by decide) (by decide) rfl rfl,
   agent_upgrade_all_matching.2.2.2.2.2 doneSession "Nobody" (by decide) (by decide)⟩

/-! ### Claims about the roster bound and the status lifecycle -/

theorem length_agents_dispatch (s : SessionState) (e : Event) :
    (dispatch s e).agents.length ≤
      s.agents.length + (if isStartEvent e then 1 else 0) := by
  cases hs : s.subscribed
  · rw [dispatch_closed s e hs]
    exact Nat.le_add_right _ _
  · cases e <;> simp [dispatch, hs, isStartEvent]

theorem length_agents_dispatchList (es : List Event) (s : SessionState) :
    (dispatchList s es).agents.length ≤ s.agents.length + es.countP isStartEvent := by
  induction es generalizing s with
  | nil => simp [dispatchList]
  | cons e es ih =>
    have h1 := length_agents_dispatch s e
    have h2 := ih (dispatch s e)
    rw [List.countP_cons]
    simp only [dispatchList]
    by_cases he : isStartEvent e <;> simp [he] at h1 ⊢ <;> omega

/-- C4 counterexample: the handlers enforce neither half of the claim.  Five
`worker-started` events (the fifth a duplicate of a roster name) grow
`agents` to length 5 > 4, and a `worker-failed` event after a completion
moves a status `complete → error`, a transition outside
`pending → working → (complete | error)`. -/
theorem roster_bound_violated :
    (dispatchList (freshSession 2)
      [cexStart, cexStart, cexStart, cexStart, cexStart]).agents.length = 5 ∧
    doneSession.agents.map AgentStatus.status = [AgentState.complete] ∧
    (dispatch doneSession (Event.agent_error "Code Reader Agent")).agents.map
      AgentStatus.status = [AgentState.error] := by
  refine ⟨by decide, by decide, by decide⟩

/-- C4 amended: `agents` grows only by `worker-started` events, so its length
stays within the roster size 4 whenever at most 4 such events are dispatched
(the source never rejects a fifth start); and each surviving entry's status
either stays put, moves `working → complete` (on `worker-completed`), or
moves to `error` (on `worker-failed`, which also demotes `complete`
entries). -/
theorem roster_bound_and_status_transitions :
    (∀ (budget : ℚ) (es : List Event), es.countP isStartEvent ≤ 4 →
       (dispatchList (freshSession budget) es).agents.length ≤ 4) ∧
    (∀ (s : SessionState) (e : Event) (i : ℕ) (a a' : AgentStatus),
       s.agents[i]? = some a → (dispatch s e).agents[i]? = some a' →
       a'.status = a.status ∨
         (a.status = AgentState.working ∧ a'.status = AgentState.complete) ∨
         a'.status = AgentState.error) := by
  constructor
  · intro budget es h
    have h1 := length_agents_dispatchList es (freshSession budget)
    have h0 : (freshSession budget).agents.length = 0 := rfl
    omega
  · intro s e i a a' h1 h2
    cases hs : s.subscribed
    · rw [dispatch_closed s e hs, h1] at h2
      exact Or.inl (by injection h2 with h; rw [← h])
    · have hlt : i < s.agents.length := (List.getElem?_eq_some.mp h1).1
      cases e with
      | agent_start ag p al =>
        have hagents : (dispatch s (Event.agent_start ag p al)).agents[i]? = s.agents[i]? := by
          simp [dispatch, hs, List.getElem?_append_left hlt]
        rw [hagents, h1] at h2
        exact Or.inl (by injection h2 with h; rw [← h])
      | agent_complete ag tx p rb k res =>
        rw [agents_after_complete s hs, List.getElem?_map, h1, Option.map_some'] at h2
        by_cases hcond : a.name = ag ∧ a.status = AgentState.working
        · rw [if_pos hcond] at h2
          injection h2 with h
          exact Or.inr (Or.inl ⟨hcond.2, by rw [← h]⟩)
        · rw [if_neg hcond] at h2
          exact Or.inl (by injection h2 with h; rw [← h])
      | agent_error ag =>
        rw [agents_after_error s hs, List.getElem?_map, h1, Option.map_some'] at h2
        by_cases hcond : a.name = ag
        · rw [if_pos hcond] at h2
          injection h2 with h
          exact Or.inr (Or.inr (by rw [← h]))
        · rw [if_neg hcond] at h2
          exact Or.inl (by injection h2 with h; rw [← h])
      | fetching_repo =>
        rw [show (dispatch s Event.fetching_repo).agents = s.agents by simp [dispatch, hs],
          h1] at h2
        exact Or.inl (by injection h2 with h; rw [← h])
      | repo_fetched m =>
        rw [show (dispatch s (Event.repo_fetched m)).agents = s.agents by
          simp [dispatch, hs], h1] at h2
        exact Or.inl (by injection h2 with h; rw [← h])
      | analysis_complete d =>
        rw [show (dispatch s (Event.analysis_complete d)).agents = s.agents by
          simp [dispatch, hs], h1] at h2
        exact Or.inl (by injection h2 with h; rw [← h])
      | report_saved sid =>
        rw [show (dispatch s (Event.report_saved sid)).agents = s.agents by
          simp [dispatch, hs], h1] at h2
        exact Or.inl (by injection h2 with h; rw [← h])
      | refund amt tx =>
        rw [show (dispatch s (Event.refund amt tx)).agents = s.agents by
          simp [dispatch, hs], h1] at h2
        exact Or.inl (by injection h2 with h; rw [← h])
      | error m =>
        rw [show (dispatch s (Event.error m)).agents = s.agents by
          simp [dispatch, hs], h1] at h2
        exact Or.inl (by injection h2 with h; rw [← h])
      | unknown =>
        rw [show (dispatch s Event.unknown).agents = s.agents by
          simp [dispatch, hs], h1] at h2
        exact Or.inl (by injection h2 with h; rw [← h])

/-- Witness for the amended C4 theorem on a one-start stream and on one
concrete `working → complete` step. -/
theorem roster_bound_and_status_transitions_witness :
    (dispatchList (freshSession 2) [cexStart]).agents.length ≤ 4 ∧
    ((dispatch (dispatchList (freshSession 2) [cexStart]) cexComplete).agents[0]?.map
        AgentStatus.status = some AgentState.complete) :=
  ⟨roster_bound_and_status_transitions.1 2 [cexStart] (by decide),
   by
    have := roster_bound_and_status_transitions.2
      (dispatchList (freshSession 2) [cexStart]) cexComplete 0
      { name := "Code Reader Agent", key := "", status := AgentState.working,
        payment := 1, txId := "", allocation := 25 }
      { name := "Code Reader Agent", key := "", status := AgentState.complete,
        payment := 1, txId := "tx1", allocation := 25 }
      (by decide) (by decide)
    decide⟩

/-! ### Claims about the remaining budget -/

/-- C5 counterexample: the handler copies `event.remainingBudget` verbatim,
so a stream that reports a larger (or negative) value makes the state's
`remainingBudget` increase (or go negative): starting from budget 2, a
`worker-completed` event carrying 3 raises it to 3, and one carrying −1
drives it below zero. -/
theorem remainingBudget_not_monotone :
    (freshSession 2).remainingBudget = 2 ∧
    (dispatch (freshSession 2)
      (Event.agent_complete "Code Reader Agent" "t" 1 3 "k" "r")).remainingBudget = 3 ∧
    (2 : ℚ) < 3 ∧
    (dispatch (freshSession 2)
      (Event.agent_complete "Code Reader Agent" "t" 1 (-1) "k" "r")).remainingBudget < 0 := by
  refine ⟨by decide, by decide, by decide, by decide⟩

/-- C5 amended: `remainingBudget` always equals the most recently delivered
`remainingBudget` payload — no other event touches it — so across
`worker-completed` events it is non-increasing, and non-negative, exactly
when each delivered value is below the current one, respectively
non-negative. -/
theorem remainingBudget_follows_stream :
    (∀ (s : SessionState) (a tx k res : String) (p rb : ℚ),
       s.subscribed = true →
       (dispatch s (Event.agent_complete a tx p rb k res)).remainingBudget = rb) ∧
    (∀ (s : SessionState) (e : Event), isCompleteEvent e = false →
       (dispatch s e).remainingBudget = s.remainingBudget) ∧
    (∀ (s : SessionState) (a tx k res : String) (p rb : ℚ),
       s.subscribed = true → rb ≤ s.remainingBudget →
       (dispatch s (Event.agent_complete a tx p rb k res)).remainingBudget ≤
         s.remainingBudget) ∧
    (∀ (s : SessionState) (a tx k res : String) (p rb : ℚ),
       s.subscribed = true → 0 ≤ rb →
       0 ≤ (dispatch s (Event.agent_complete a tx p rb k res)).remainingBudget) := by
  have hset : ∀ (s : SessionState) (a tx k res : String) (p rb : ℚ),
      s.subscribed = true →
      (dispatch s (Event.agent_complete a tx p rb k res)).remainingBudget = rb := by
    intro s a tx k res p rb hs
    simp [dispatch, hs]
  refine ⟨hset, ?_, ?_, ?_⟩
  · intro s e he
    cases hs : s.subscribed
    · rw [dispatch_closed s e hs]
    · cases e <;> simp_all [dispatch, isCompleteEvent]
  · intro s a tx k res p rb hs hle
    rw [hset s a tx k res p rb hs]
    exact hle
  · intro s a tx k res p rb hs hnn
    rw [hset s a tx k res p rb hs]
    exact hnn

/-- Witness for the amended C5 theorem on a concrete completion that lowers
the budget from 2 to 1. -/
theorem remainingBudget_follows_stream_witness :
    (dispatch (freshSession 2)
      (Event.agent_complete "Code Reader Agent" "t" 1 1 "k" "r")).remainingBudget = 1 ∧
    (dispatch (freshSession 2)
      (Event.agent_complete "Code Reader Agent" "t" 1 1 "k" "r")).remainingBudget ≤
      (freshSession 2).remainingBudget ∧
    (dispatch (freshSession 2) Event.unknown).remainingBudget =
      (freshSession 2).remainingBudget :=
  ⟨remainingBudget_follows_stream.1 (freshSession 2) "Code Reader Agent" "t" "k" "r" 1 1
      (by decide),
   remainingBudget_follows_stream.2.2.1 (freshSession 2) "Code Reader Agent" "t" "k" "r" 1 1
      (by decide) (by decide),
   remainingBudget_follows_stream.2.1 (freshSession 2) Event.unknown (by decide)⟩

/-! ### Claims about the refund -/

/-- C6 counterexample: a `refund` event arriving on a fresh session is
recorded and observable (`refundAmount = 1`, `phase = complete`) while every
roster slot still reads `pending` — a non-terminal state — so a set refund is
not restricted to all-terminal states. -/
theorem refund_observable_before_terminal :
    (dispatch (freshSession 2) (Event.refund 1 "rtx")).refundAmount = 1 ∧
    (dispatch (freshSession 2) (Event.refund 1 "rtx")).phase = Phase.complete ∧
    ∀ n ∈ rosterNames,
      slotStatus (dispatch (freshSession 2) (Event.refund 1 "rtx")) n =
        AgentState.pending := by
  refine ⟨by decide, by decide, by decide⟩

/-- C6 amended: the refund is still set at most once per session — processing
a `refund` event records the amount and receipt, marks the phase `complete`
and closes the subscription, after which every further event leaves the
session (hence the refund) unchanged — but it is observable whenever the
`refund` event arrives, regardless of the roster slots' states. -/
theorem refund_set_at_most_once :
    (∀ (s : SessionState) (amt : ℚ) (tx : String), s.subscribed = true →
       (dispatch s (Event.refund amt tx)).refundAmount = amt ∧
       (dispatch s (Event.refund amt tx)).refundTxId = tx ∧
       (dispatch s (Event.refund amt tx)).phase = Phase.complete ∧
       (dispatch s (Event.refund amt tx)).subscribed = false) ∧
    (∀ (s : SessionState) (e : Event), s.subscribed = false → dispatch s e = s) := by
  constructor
  · intro s amt tx hs
    refine ⟨?_, ?_, ?_, ?_⟩ <;> simp [dispatch, hs]
  · intro s e hs
    exact dispatch_closed s e hs

/-- Witness for the amended C6 theorem: a concrete refund closes the session
and a subsequent event leaves it untouched. -/
theorem refund_set_at_most_once_witness :
    (dispatch (freshSession 2) (Event.refund 1 "rtx")).refundAmount = 1 ∧
    (dispatch (freshSession 2) (Event.refund 1 "rtx")).subscribed = false ∧
    dispatch (dispatch (freshSession 2) (Event.refund 1 "rtx")) (Event.refund 7 "other") =
      dispatch (freshSession 2) (Event.refund 1 "rtx") :=
  ⟨(refund_set_at_most_once.1 (freshSession 2) 1 "rtx" (by decide)).1,
   (refund_set_at_most_once.1 (freshSession 2) 1 "rtx" (by decide)).2.2.2,
   refund_set_at_most_once.2 (dispatch (freshSession 2) (Event.refund 1 "rtx"))
      (Event.refund 7 "other") (by decide)⟩

/-! ### Claims about the phase -/

theorem reachable_complete_closed (s : SessionState) (h : Reachable s) :
    s.phase = Phase.complete → s.subscribed = false := by
  induction h with
  | init budget => intro hp; exact Phase.noConfusion hp
  | step s e _ ih =>
    cases hs : s.subscribed
    · rw [dispatch_closed s e hs]
      exact ih
    · cases e <;> simp_all [dispatch]

/-- C7 counterexample: a `fetching_repo` event arriving while the session is
`analyzing` moves the phase back to `fetching`, a backward move by a
non-error event. -/
theorem phase_moves_backward :
    (dispatchList (freshSession 2) [Event.repo_fetched ⟨"o/r", 3, ["ts"]⟩]).phase =
      Phase.analyzing ∧
    (dispatchList (freshSession 2)
      [Event.repo_fetched ⟨"o/r", 3, ["ts"]⟩, Event.fetching_repo]).phase =
      Phase.fetching ∧
    phaseRank Phase.fetching < phaseRank Phase.analyzing := by
  refine ⟨by decide, by decide, by decide⟩

/-- C7 amended: over reachable sessions the phase rank never decreases under
dispatch, except for the two backward moves present in the source: a
`fatal-error` event (which resets to `idle`, as the claim already allows) and
a `fetching_repo` event (which unconditionally rewinds the phase to
`fetching`). -/
theorem phase_monotone_except_error_refetch
    (s : SessionState) (e : Event) (hr : Reachable s)
    (hne : isErrorEvent e = false) (hnf : e ≠ Event.fetching_repo) :
    phaseRank s.phase ≤ phaseRank (dispatch s e).phase := by
  cases hs : s.subscribed
  · rw [dispatch_closed s e hs]
  · cases e with
    | fetching_repo => exact absurd rfl hnf
    | error m => exact absurd hne (by simp [isErrorEvent])
    | repo_fetched m =>
      have hnotc : s.phase ≠ Phase.complete := by
        intro hp
        rw [reachable_complete_closed s hr hp] at hs
        cases hs
      have : (dispatch s (Event.repo_fetched m)).phase = Phase.analyzing := by
        simp [dispatch, hs]
      rw [this]
      cases hp : s.phase <;> simp_all [phaseRank]
    | refund amt tx =>
      have : (dispatch s (Event.refund amt tx)).phase = Phase.complete := by
        simp [dispatch, hs]
      rw [this]
      cases hp : s.phase <;> simp [phaseRank]
    | agent_start a p al => rw [show (dispatch s _).phase = s.phase by simp [dispatch, hs]]
    | agent_complete a tx p rb k res =>
      rw [show (dispatch s _).phase = s.phase by simp [dispatch, hs]]
    | agent_error a => rw [show (dispatch s _).phase = s.phase by simp [dispatch, hs]]
    | analysis_complete d => rw [show (dispatch s _).phase = s.phase by simp [dispatch, hs]]
    | report_saved sid => rw [show (dispatch s _).phase = s.phase by simp [dispatch, hs]]
    | unknown => rw [show (dispatch s _).phase = s.phase by simp [dispatch, hs]]

/-- Witness for the amended C7 theorem: on the reachable fresh session a
`repo_fetched` event moves the rank forward. -/
theorem phase_monotone_except_error_refetch_witness :
    phaseRank (freshSession 2).phase ≤
      phaseRank (dispatch (freshSession 2) (Event.repo_fetched ⟨"o/r", 3, ["ts"]⟩)).phase :=
  phase_monotone_except_error_refetch (freshSession 2)
    (Event.repo_fetched ⟨"o/r", 3, ["ts"]⟩) (Reachable.init 2) (by decide) (by decide)

/-! ### Claims about `startAnalysis` validation -/

/-- C8: `startAnalysis` rejects an empty (after trimming) URL, and a URL not
containing `github.com`, by setting only the validation message — phase,
agents and the subscription are untouched, so no network action happens — and
on a valid URL resets to a fresh session with `phase = fetching`, an empty
roster, the chosen budget and an open subscription. -/
theorem startAnalysis_validation (s : SessionState) (repoUrl : List Char) (budget : ℚ) :
    (trim repoUrl = [] →
       (startAnalysis s repoUrl budget).errorMsg = "Please enter a GitHub repo URL." ∧
       (startAnalysis s repoUrl budget).subscribed = s.subscribed ∧
       (startAnalysis s repoUrl budget).phase = s.phase ∧
       (startAnalysis s repoUrl budget).agents = s.agents) ∧
    (trim repoUrl ≠ [] → includesSub githubDomain (trim repoUrl) = false →
       (startAnalysis s repoUrl budget).errorMsg =
         "Only GitHub repos are supported right now." ∧
       (startAnalysis s repoUrl budget).subscribed = s.subscribed ∧
       (startAnalysis s repoUrl budget).phase = s.phase ∧
       (startAnalysis s repoUrl budget).agents = s.agents) ∧
    (trim repoUrl ≠ [] → includesSub githubDomain (trim repoUrl) = true →
       startAnalysis s repoUrl budget = freshSession budget ∧
       (freshSession budget).phase = Phase.fetching ∧
       (freshSession budget).subscribed = true ∧
       (freshSession budget).agents = [] ∧
       (freshSession budget).remainingBudget = budget) := by
  refine ⟨?_, ?_, ?_⟩
  · intro h1
    refine ⟨?_, ?_, ?_, ?_⟩ <;> simp [startAnalysis, h1]
  · intro h1 h2
    refine ⟨?_, ?_, ?_, ?_⟩ <;> simp [startAnalysis, h1, h2]
  · intro h1 h2
    refine ⟨?_, rfl, rfl, rfl, rfl⟩
    simp [startAnalysis, h1, h2]

/-- Witness for C8: the empty URL is rejected without opening a subscription,
and a GitHub URL starts a fresh fetching session. -/
theorem startAnalysis_validation_witness :
    (startAnalysis (freshSession 2) "   ".toList 2).errorMsg =
      "Please enter a GitHub repo URL." ∧
    startAnalysis (freshSession 2) "https://github.com/a/b".toList 3 = freshSession 3 :=
  ⟨((startAnalysis_validation (freshSession 2) "   ".toList 2).1 (by decide)).1,
   ((startAnalysis_validation (freshSession 2) "https://github.com/a/b".toList 3).2.2
      (by decide) (by decide)).1⟩

end Paystream
